import Mathlib

/-!
Verification of the counterpoint linter (counterpoint-linter.ts).

The source is a small TypeScript module with a note parser, a key parser
and a rule engine (lintCounterpoint) that reports parallel fifths and
octaves, leaps larger than an octave, unresolved leading tones, length
mismatches and parse errors. The definitions below are a shallow
embedding of that module: JavaScript numbers are modelled as exact
integers, strings as Lean strings (processed as character lists), and
the regular expressions of the source as explicit character parsers.
The JavaScript remainder operator is truncated remainder, modelled by
Int.tmod.
-/

namespace Counterpoint

/-- Issue kinds reported by the linter (source union type IssueType). -/
inductive IssueType where
  | Parallel5ths
  | Parallel8ves
  | LeapOverOctave
  | UnresolvedLeadingTone
  | LengthMismatch
  | ParseError
deriving DecidableEq, Repr

/-- Voice tag; the source declares the type Voice as the string-literal union of "A" and "B". -/
abbrev Voice := String

/-- Parsed note (source interface Note): raw token, MIDI number (C4 = 60), pitch class 0..11. -/
structure Note where
  raw : String
  midi : Int
  pc : Int
deriving DecidableEq, Repr

/-- Reported issue (source interface Issue); index and voice are optional fields. -/
structure Issue where
  type : IssueType
  index : Option Nat := none
  voice : Option Voice := none
  details : String
deriving DecidableEq, Repr

/-- Mode of a key, source union type of the literals "major" and "minor". -/
inductive Mode where
  | major
  | minor
deriving DecidableEq, Repr

/-- Parsed key (source return type of parseKey). -/
structure Key where
  tonicPC : Int
  mode : Mode
deriving DecidableEq, Repr

/-- Source mod12: ((n % 12) + 12) % 12, where the JavaScript remainder is
truncated remainder (Int.tmod). -/
def mod12 (n : Int) : Int := ((n.tmod 12) + 12).tmod 12

/-- Source sign: 0 for 0, 1 for positive, -1 for negative. -/
def sign (n : Int) : Int := if n = 0 then 0 else if n > 0 then 1 else -1

/-- The regex letter class [A-Ga-g] combined with the LETTER_TO_PC table lookup
on the uppercased letter: C=0, D=2, E=4, F=5, G=7, A=9, B=11. -/
def letterPC (c : Char) : Option Int :=
  match c.toUpper with
  | 'C' => some 0
  | 'D' => some 2
  | 'E' => some 4
  | 'F' => some 5
  | 'G' => some 7
  | 'A' => some 9
  | 'B' => some 11
  | _ => none

/-- List-level trim, modelling String.prototype.trim. -/
def trimL (cs : List Char) : List Char :=
  ((cs.dropWhile Char.isWhitespace).reverse.dropWhile Char.isWhitespace).reverse

/-- One step of splitting a character list into whitespace-separated words. -/
def splitWsAux (c : Char) (acc : List (List Char)) : List (List Char) :=
  if c.isWhitespace then [] :: acc
  else
    match acc with
    | [] => [[c]]
    | w :: ws => (c :: w) :: ws

/-- Source tokenization line.trim().split(whitespace runs).filter(Boolean):
split on whitespace and discard empty tokens. -/
def tokenize (line : String) : List String :=
  ((line.toList.foldr splitWsAux []).filter (fun w => !w.isEmpty)).map String.mk

/-- Digit-run parser for the regex fragment of one or more decimal digits,
with the numeric value given by parseInt in base 10. -/
def parseDigits (cs : List Char) : Option Nat :=
  if cs.isEmpty then none
  else if cs.all Char.isDigit then some (cs.foldl (fun a c => 10 * a + (c.toNat - '0'.toNat)) 0)
  else none

/-- Signed-integer parser for the regex octave group: an optional minus sign
followed by one or more digits, ending the token. -/
def parseSignedInt (cs : List Char) : Option Int :=
  match cs with
  | '-' :: ds => (parseDigits ds).map (fun n => -(n : Int))
  | ds => (parseDigits ds).map (fun n => (n : Int))

/-- Accidental group of the note regex, case sensitive: an optional single
sharp sign (+1) or lowercase b (-1). -/
def accSplitNote : List Char → Int × List Char
  | '#' :: r => (1, r)
  | 'b' :: r => (-1, r)
  | r => (0, r)

/-- Source parseNote: trim the token, match letter, optional accidental and
signed octave, and build the Note with pc = mod12(base + accidental) and
midi = 12 * (oct + 1) + pc. Returns none exactly when the regex fails. -/
def parseNote (token : String) : Option Note :=
  match trimL token.toList with
  | [] => none
  | c :: rest =>
    match letterPC c with
    | none => none
    | some pc0 =>
      let ar := accSplitNote rest
      match parseSignedInt ar.2 with
      | none => none
      | some oct =>
        let pc := mod12 (pc0 + ar.1)
        some { raw := token, midi := 12 * (oct + 1) + pc, pc := pc }

/-- Result of parsing one melody line (source anonymous record of notes and issues). -/
structure MelodyResult where
  notes : List Note
  issues : List Issue
deriving DecidableEq, Repr

/-- Recursion of the source forEach over tokens: the counter i is the token
index used in ParseError issues; successfully parsed notes and issues are
accumulated in token order. -/
def parseMelodyAux : Nat → List String → MelodyResult
  | _, [] => { notes := [], issues := [] }
  | i, t :: ts =>
    let rest := parseMelodyAux (i + 1) ts
    match parseNote t with
    | some n => { notes := n :: rest.notes, issues := rest.issues }
    | none =>
      { notes := rest.notes
        issues := { type := IssueType.ParseError, index := some i,
                    details := "Cannot parse note \"" ++ t ++ "\"" } :: rest.issues }

/-- Source parseMelody: tokenize the line and parse each token independently. -/
def parseMelody (line : String) : MelodyResult :=
  parseMelodyAux 0 (tokenize line)

/-- Accidental group of the key regex. The key regex carries the
case-insensitive flag, so its accidental class also accepts an uppercase B;
the subsequent accidental comparisons in the source are case sensitive
(acc === sharp, acc === lowercase b), so a matched uppercase B adjusts
nothing. -/
def accSplitKey : List Char → Int × List Char
  | '#' :: r => (1, r)
  | 'b' :: r => (-1, r)
  | 'B' :: r => (0, r)
  | r => (0, r)

/-- Mode word of the key regex, matched case-insensitively and lowercased. -/
def modeOf (cs : List Char) : Option Mode :=
  if cs.map Char.toLower = "major".toList then some Mode.major
  else if cs.map Char.toLower = "minor".toList then some Mode.minor
  else none

/-- Source parseKey: trim, match letter, optional accidental, optional
whitespace and the mode word; tonicPC = mod12(base + accidental). -/
def parseKey (keyStr : String) : Option Key :=
  match trimL keyStr.toList with
  | [] => none
  | c :: rest =>
    match letterPC c with
    | none => none
    | some pc0 =>
      let ar := accSplitKey rest
      let rest2 := ar.2.dropWhile Char.isWhitespace
      match modeOf rest2 with
      | none => none
      | some mode => some { tonicPC := mod12 (pc0 + ar.1), mode := mode }

/-- Default Note used with List.getD; every access below is guarded by the
range of the enclosing loop, so this default is never the value read. -/
def dNote : Note := { raw := "", midi := 0, pc := 0 }

/-- Word used in detail strings: Upper for voice A, Lower for voice B. -/
def voiceWord (v : Voice) : String := if v = "A" then "Upper" else "Lower"

/-- Body of the rule 1 loop at position i: parallel fifths and octaves by
similar motion. -/
def parallelAt (A B : List Note) (i : Nat) : List Issue :=
  let int1 : Int := |(A.getD i dNote).midi - (B.getD i dNote).midi|
  let int2 : Int := |(A.getD (i + 1) dNote).midi - (B.getD (i + 1) dNote).midi|
  let pc1 := mod12 int1
  let pc2 := mod12 int2
  let dirA := sign ((A.getD (i + 1) dNote).midi - (A.getD i dNote).midi)
  let dirB := sign ((B.getD (i + 1) dNote).midi - (B.getD i dNote).midi)
  let similar : Bool := dirA != 0 && dirB != 0 && dirA == dirB
  (if similar && pc1 == 7 && pc2 == 7 then
    [{ type := IssueType.Parallel5ths, index := some i,
       details := "Parallel 5ths at positions " ++ toString i ++ "→" ++ toString (i + 1)
         ++ " (" ++ (A.getD i dNote).raw ++ "/" ++ (B.getD i dNote).raw ++ " → "
         ++ (A.getD (i + 1) dNote).raw ++ "/" ++ (B.getD (i + 1) dNote).raw ++ ")" }]
  else []) ++
  (if similar && pc1 == 0 && pc2 == 0 then
    [{ type := IssueType.Parallel8ves, index := some i,
       details := "Parallel 8ves (or unisons) at positions " ++ toString i ++ "→"
         ++ toString (i + 1) }]
  else [])

/-- Rule 1 loop: i ranges over 0 .. N-2 with N the minimum of the two lengths. -/
def parallelIssues (A B : List Note) : List Issue :=
  (List.range (min A.length B.length - 1)).flatMap (parallelAt A B)

/-- Body of the rule 2 loop at position i: leap larger than an octave. -/
def leapAt (v : Voice) (L : List Note) (i : Nat) : List Issue :=
  let leap : Int := |(L.getD (i + 1) dNote).midi - (L.getD i dNote).midi|
  if leap > 12 then
    [{ type := IssueType.LeapOverOctave, voice := some v, index := some i,
       details := voiceWord v ++ " voice leaps " ++ toString leap ++ " semitones at "
         ++ toString i ++ "→" ++ toString (i + 1) ++ " (" ++ (L.getD i dNote).raw ++ "→"
         ++ (L.getD (i + 1) dNote).raw ++ ")" }]
  else []

/-- Rule 2 loop over one voice, i ranging over 0 .. length - 2. -/
def leapIssues (v : Voice) (L : List Note) : List Issue :=
  (List.range (L.length - 1)).flatMap (leapAt v L)

/-- Body of the rule 3 loop at position i: unresolved leading tone. -/
def leadingToneAt (v : Voice) (tonicPC leadingPC : Int) (L : List Note) (i : Nat) :
    List Issue :=
  if (L.getD i dNote).pc == leadingPC then
    let stepUp : Bool := mod12 ((L.getD (i + 1) dNote).pc - (L.getD i dNote).pc) == 1
    if !((L.getD (i + 1) dNote).pc == tonicPC && stepUp) then
      [{ type := IssueType.UnresolvedLeadingTone, voice := some v, index := some i,
         details := voiceWord v ++ " voice leading tone (" ++ (L.getD i dNote).raw
           ++ ") does not resolve up by semitone to tonic" }]
    else []
  else []

/-- Rule 3 loop over one voice, i ranging over 0 .. length - 2. -/
def leadingToneIssues (v : Voice) (tonicPC leadingPC : Int) (L : List Note) : List Issue :=
  (List.range (L.length - 1)).flatMap (leadingToneAt v tonicPC leadingPC L)

/-- Source lintCounterpoint: parse the key (returning a single ParseError
issue on failure), parse both melodies, report a length mismatch, then run
the three rule passes and concatenate all issues in push order. -/
def lintCounterpoint (upperLine lowerLine keyStr : String) : List Issue :=
  match parseKey keyStr with
  | none =>
    [{ type := IssueType.ParseError,
       details := "Key \"" ++ keyStr ++ "\" not understood. Use like \"C major\" or \"A minor\"." }]
  | some key =>
    let leadingPC := mod12 (key.tonicPC - 1)
    let tonicPC := key.tonicPC
    let pA := parseMelody upperLine
    let pB := parseMelody lowerLine
    let A := pA.notes
    let B := pB.notes
    let lenIssues : List Issue :=
      if A.length ≠ B.length then
        [{ type := IssueType.LengthMismatch,
           details := "Voices have different lengths (" ++ toString A.length ++ " vs "
             ++ toString B.length ++ "). Lint assumes aligned notes." }]
      else []
    pA.issues ++ pB.issues ++ lenIssues
      ++ parallelIssues A B
      ++ leapIssues "A" A ++ leapIssues "B" B
      ++ leadingToneIssues "A" tonicPC leadingPC A
      ++ leadingToneIssues "B" tonicPC leadingPC B

/-- Ordering relation on issues: the index of the first is below the index of
the second. -/
def idxLt (x y : Issue) : Prop :=
  ∀ a b, x.index = some a → y.index = some b → a < b

/-- Second definition for the refinement claim about the leading-tone rule,
following the claim wording: the same body with the semitone-step conjunct
dropped, so only the tonic pitch-class comparison on the next note remains. -/
def leadingToneAtSimplified (v : Voice) (tonicPC leadingPC : Int) (L : List Note) (i : Nat) :
    List Issue :=
  if (L.getD i dNote).pc == leadingPC then
    if !((L.getD (i + 1) dNote).pc == tonicPC) then
      [{ type := IssueType.UnresolvedLeadingTone, voice := some v, index := some i,
         details := voiceWord v ++ " voice leading tone (" ++ (L.getD i dNote).raw
           ++ ") does not resolve up by semitone to tonic" }]
    else []
  else []

/-- Loop form of the simplified leading-tone rule. -/
def leadingToneIssuesSimplified (v : Voice) (tonicPC leadingPC : Int) (L : List Note) :
    List Issue :=
  (List.range (L.length - 1)).flatMap (leadingToneAtSimplified v tonicPC leadingPC L)

/-- The composite source expression mod12 agrees with the mathematical
(Euclidean) remainder by 12, even though the JavaScript remainder operator
truncates toward zero. -/
theorem mod12_eq (n : Int) : mod12 n = n % 12 := by
  have h12 : (0 : Int) < 12 := by norm_num
  have hlt : n.tmod 12 < 12 := Int.tmod_lt_of_pos n h12
  have hgt : -12 < n.tmod 12 := by
    cases n with
    | ofNat m =>
      have h0 : (0 : Int) ≤ Int.ofNat m := Int.ofNat_nonneg m
      have := Int.tmod_nonneg (a := Int.ofNat m) 12 h0
      omega
    | negSucc m =>
      have hr : (Int.negSucc m).tmod 12 = -(((m + 1) % 12 : Nat) : Int) := rfl
      have hm : (m + 1) % 12 < 12 := Nat.mod_lt _ (by omega)
      omega
  have hq := Int.tmod_add_tdiv n 12
  have h2 : (n.tmod 12 + 12).tmod 12 = (n.tmod 12 + 12) % 12 :=
    Int.tmod_eq_emod (by omega) (by norm_num)
  unfold mod12
  rw [h2]
  omega

/-- mod12 is nonnegative. -/
theorem mod12_nonneg (n : Int) : 0 ≤ mod12 n := by
  rw [mod12_eq]; omega

/-- mod12 is below 12. -/
theorem mod12_lt (n : Int) : mod12 n < 12 := by
  rw [mod12_eq]; omega

/-- Every issue produced by the rule 1 body at position j carries index j,
no voice tag, and one of the two parallel kinds. -/
theorem mem_parallelAt {A B : List Note} {j : Nat} {iss : Issue}
    (h : iss ∈ parallelAt A B j) :
    iss.index = some j ∧ iss.voice = none ∧
      (iss.type = IssueType.Parallel5ths ∨ iss.type = IssueType.Parallel8ves) := by
  unfold parallelAt at h
  simp only [List.mem_append] at h
  rcases h with h | h <;> split at h <;> simp_all

/-- The rule 1 body emits a Parallel5ths issue at position j exactly when the
motion is similar and both vertical intervals reduce to class 7. -/
theorem parallelAt_five_iff (A B : List Note) (j : Nat) :
    (∃ iss ∈ parallelAt A B j, iss.type = IssueType.Parallel5ths) ↔
      (sign ((A.getD (j + 1) dNote).midi - (A.getD j dNote).midi) ≠ 0 ∧
       sign ((B.getD (j + 1) dNote).midi - (B.getD j dNote).midi) ≠ 0 ∧
       sign ((A.getD (j + 1) dNote).midi - (A.getD j dNote).midi) =
         sign ((B.getD (j + 1) dNote).midi - (B.getD j dNote).midi) ∧
       mod12 |(A.getD j dNote).midi - (B.getD j dNote).midi| = 7 ∧
       mod12 |(A.getD (j + 1) dNote).midi - (B.getD (j + 1) dNote).midi| = 7) := by
  unfold parallelAt
  simp only [List.mem_append, List.mem_ite_nil_right]
  constructor
  · rintro ⟨iss, h, htype⟩
    rcases h with ⟨hc, him⟩ | ⟨hc, him⟩
    · simp only [Bool.and_eq_true, bne_iff_ne, beq_iff_eq] at hc
      tauto
    · rcases List.mem_singleton.mp him with rfl
      simp at htype
  · rintro ⟨h1, h2, h3, h4, h5⟩
    refine ⟨_, Or.inl ⟨?_, List.mem_singleton_self _⟩, rfl⟩
    simp only [Bool.and_eq_true, bne_iff_ne, beq_iff_eq]
    tauto

/-- The rule 1 body emits a Parallel8ves issue at position j exactly when the
motion is similar and both vertical intervals reduce to class 0. -/
theorem parallelAt_eight_iff (A B : List Note) (j : Nat) :
    (∃ iss ∈ parallelAt A B j, iss.type = IssueType.Parallel8ves) ↔
      (sign ((A.getD (j + 1) dNote).midi - (A.getD j dNote).midi) ≠ 0 ∧
       sign ((B.getD (j + 1) dNote).midi - (B.getD j dNote).midi) ≠ 0 ∧
       sign ((A.getD (j + 1) dNote).midi - (A.getD j dNote).midi) =
         sign ((B.getD (j + 1) dNote).midi - (B.getD j dNote).midi) ∧
       mod12 |(A.getD j dNote).midi - (B.getD j dNote).midi| = 0 ∧
       mod12 |(A.getD (j + 1) dNote).midi - (B.getD (j + 1) dNote).midi| = 0) := by
  unfold parallelAt
  simp only [List.mem_append, List.mem_ite_nil_right]
  constructor
  · rintro ⟨iss, h, htype⟩
    rcases h with ⟨hc, him⟩ | ⟨hc, him⟩
    · rcases List.mem_singleton.mp him with rfl
      simp at htype
    · simp only [Bool.and_eq_true, bne_iff_ne, beq_iff_eq] at hc
      tauto
  · rintro ⟨h1, h2, h3, h4, h5⟩
    refine ⟨_, Or.inr ⟨?_, List.mem_singleton_self _⟩, rfl⟩
    simp only [Bool.and_eq_true, bne_iff_ne, beq_iff_eq]
    tauto

/-- Membership in a loop modelled as flatMap over an index range. -/
theorem mem_flatMap_range {f : Nat → List Issue} {n : Nat} {iss : Issue} :
    iss ∈ (List.range n).flatMap f ↔ ∃ j, j < n ∧ iss ∈ f j := by
  simp [List.mem_flatMap, List.mem_range]

/-- Counting over a loop modelled as flatMap over an index range. -/
theorem countP_flatMap_range (f : Nat → List Issue) (p : Issue → Bool) (n : Nat) :
    ((List.range n).flatMap f).countP p
      = ((List.range n).map (fun j => (f j).countP p)).sum := by
  induction n with
  | zero => simp
  | succ m ih =>
    rw [List.range_succ, List.flatMap_append, List.countP_append, ih,
      List.map_append, List.sum_append]
    simp

/-- Summing a function that vanishes away from a single index. -/
theorem sum_map_eq_single (n i : Nat) (g : Nat → Nat) (hg : ∀ j, j ≠ i → g j = 0) :
    ((List.range n).map g).sum = if i < n then g i else 0 := by
  induction n with
  | zero => simp
  | succ m ih =>
    rw [List.range_succ, List.map_append, List.sum_append, ih]
    simp only [List.map_cons, List.map_nil, List.sum_cons, List.sum_nil]
    by_cases h1 : i < m
    · have hm : m ≠ i := by omega
      simp [h1, hg m hm, if_pos (show i < m + 1 by omega)]
    · by_cases h2 : m = i
      · subst h2
        simp [h1, if_pos (show m < m + 1 by omega)]
      · have h3 : ¬ i < m + 1 := by omega
        simp [h1, h2, hg m h2, h3]

/-- Every issue produced by the rule 2 body at position j carries index j,
the given voice tag, and the LeapOverOctave kind. -/
theorem mem_leapAt {v : Voice} {L : List Note} {j : Nat} {iss : Issue}
    (h : iss ∈ leapAt v L j) :
    iss.index = some j ∧ iss.voice = some v ∧ iss.type = IssueType.LeapOverOctave := by
  simp only [leapAt] at h
  split at h <;> simp_all

/-- Count of rule 2 body issues at position j matching index i. -/
theorem leapAt_countP (v : Voice) (L : List Note) (i j : Nat) :
    (leapAt v L j).countP (fun iss => iss.index == some i)
      = if (j = i ∧ 12 < |(L.getD (j + 1) dNote).midi - (L.getD j dNote).midi|)
        then 1 else 0 := by
  by_cases hlt : (12 : Int) < |(L.getD (j + 1) dNote).midi - (L.getD j dNote).midi|
  · by_cases hj : j = i
    · subst hj
      simp only [leapAt]
      rw [if_pos hlt, if_pos (And.intro (by simp) hlt)]
      simp [List.countP_cons]
    · simp only [leapAt]
      rw [if_pos hlt, if_neg (fun hc => hj hc.1)]
      simp [List.countP_cons, hj]
  · simp only [leapAt]
    rw [if_neg hlt, if_neg (fun hc => hlt hc.2)]
    simp

/-- The rule 2 loop emits exactly one LeapOverOctave issue at index i when the
adjacent pair exists and leaps more than 12 semitones, and none otherwise. -/
theorem leapIssues_countP (v : Voice) (L : List Note) (i : Nat) :
    (leapIssues v L).countP (fun iss => iss.index == some i)
      = if (i + 1 < L.length ∧ 12 < |(L.getD (i + 1) dNote).midi - (L.getD i dNote).midi|)
        then 1 else 0 := by
  unfold leapIssues
  rw [countP_flatMap_range, sum_map_eq_single (L.length - 1) i _
    (fun j hj => by rw [leapAt_countP]; simp [hj])]
  rw [leapAt_countP]
  by_cases h1 : i < L.length - 1
  · have h2 : i + 1 < L.length := by omega
    simp [h1, h2]
  · have h2 : ¬ (i + 1 < L.length) := by omega
    simp [h1, h2]

/-- Membership form of the rule 2 characterization. -/
theorem leapIssues_mem_iff (v : Voice) (L : List Note) (i : Nat) :
    (∃ iss ∈ leapIssues v L, iss.index = some i) ↔
      (i + 1 < L.length ∧ 12 < |(L.getD (i + 1) dNote).midi - (L.getD i dNote).midi|) := by
  have hcount := leapIssues_countP v L i
  constructor
  · rintro ⟨iss, hmem, hidx⟩
    by_contra hc
    rw [if_neg hc] at hcount
    have : 0 < (leapIssues v L).countP (fun iss => iss.index == some i) :=
      List.countP_pos_iff.mpr ⟨iss, hmem, by simp [hidx]⟩
    omega
  · intro hc
    rw [if_pos hc] at hcount
    have : 0 < (leapIssues v L).countP (fun iss => iss.index == some i) := by omega
    obtain ⟨iss, hmem, hp⟩ := List.countP_pos_iff.mp this
    exact ⟨iss, hmem, by simpa using hp⟩

/-- Every issue of the rule 1 loop has no voice tag, a parallel kind, and an
index i with i + 1 below the common length. -/
theorem mem_parallelIssues {A B : List Note} {iss : Issue}
    (h : iss ∈ parallelIssues A B) :
    iss.voice = none ∧ (iss.type = IssueType.Parallel5ths ∨ iss.type = IssueType.Parallel8ves) ∧
      ∃ j, iss.index = some j ∧ j + 1 < min A.length B.length := by
  unfold parallelIssues at h
  obtain ⟨j, hj, hmem⟩ := mem_flatMap_range.mp h
  have hs := mem_parallelAt hmem
  exact ⟨hs.2.1, hs.2.2, j, hs.1, by omega⟩

/-- The rule 1 loop emits a Parallel5ths issue at index i exactly when i + 1
is below the common length, motion at i is similar, and both vertical
intervals reduce to class 7. -/
theorem parallelIssues_five_iff (A B : List Note) (i : Nat) :
    (∃ iss ∈ parallelIssues A B, iss.type = IssueType.Parallel5ths ∧ iss.index = some i) ↔
      (i + 1 < min A.length B.length ∧
       sign ((A.getD (i + 1) dNote).midi - (A.getD i dNote).midi) ≠ 0 ∧
       sign ((B.getD (i + 1) dNote).midi - (B.getD i dNote).midi) ≠ 0 ∧
       sign ((A.getD (i + 1) dNote).midi - (A.getD i dNote).midi) =
         sign ((B.getD (i + 1) dNote).midi - (B.getD i dNote).midi) ∧
       mod12 |(A.getD i dNote).midi - (B.getD i dNote).midi| = 7 ∧
       mod12 |(A.getD (i + 1) dNote).midi - (B.getD (i + 1) dNote).midi| = 7) := by
  unfold parallelIssues
  constructor
  · rintro ⟨iss, hmem, htype, hidx⟩
    obtain ⟨j, hj, hmemj⟩ := mem_flatMap_range.mp hmem
    have hs := mem_parallelAt hmemj
    have hji : j = i := by
      rw [hs.1] at hidx
      exact Option.some.inj hidx
    subst hji
    exact ⟨by omega, (parallelAt_five_iff A B j).mp ⟨iss, hmemj, htype⟩⟩
  · rintro ⟨hi, hc⟩
    obtain ⟨iss, hmem, htype⟩ := (parallelAt_five_iff A B i).mpr hc
    exact ⟨iss, mem_flatMap_range.mpr ⟨i, by omega, hmem⟩, htype, (mem_parallelAt hmem).1⟩

/-- The rule 1 loop emits a Parallel8ves issue at index i exactly when i + 1
is below the common length, motion at i is similar, and both vertical
intervals reduce to class 0. -/
theorem parallelIssues_eight_iff (A B : List Note) (i : Nat) :
    (∃ iss ∈ parallelIssues A B, iss.type = IssueType.Parallel8ves ∧ iss.index = some i) ↔
      (i + 1 < min A.length B.length ∧
       sign ((A.getD (i + 1) dNote).midi - (A.getD i dNote).midi) ≠ 0 ∧
       sign ((B.getD (i + 1) dNote).midi - (B.getD i dNote).midi) ≠ 0 ∧
       sign ((A.getD (i + 1) dNote).midi - (A.getD i dNote).midi) =
         sign ((B.getD (i + 1) dNote).midi - (B.getD i dNote).midi) ∧
       mod12 |(A.getD i dNote).midi - (B.getD i dNote).midi| = 0 ∧
       mod12 |(A.getD (i + 1) dNote).midi - (B.getD (i + 1) dNote).midi| = 0) := by
  unfold parallelIssues
  constructor
  · rintro ⟨iss, hmem, htype, hidx⟩
    obtain ⟨j, hj, hmemj⟩ := mem_flatMap_range.mp hmem
    have hs := mem_parallelAt hmemj
    have hji : j = i := by
      rw [hs.1] at hidx
      exact Option.some.inj hidx
    subst hji
    exact ⟨by omega, (parallelAt_eight_iff A B j).mp ⟨iss, hmemj, htype⟩⟩
  · rintro ⟨hi, hc⟩
    obtain ⟨iss, hmem, htype⟩ := (parallelAt_eight_iff A B i).mpr hc
    exact ⟨iss, mem_flatMap_range.mpr ⟨i, by omega, hmem⟩, htype, (mem_parallelAt hmem).1⟩

/-- Every issue produced by the rule 3 body at position j carries index j,
the given voice tag, and the UnresolvedLeadingTone kind. -/
theorem mem_leadingToneAt {v : Voice} {t lp : Int} {L : List Note} {j : Nat} {iss : Issue}
    (h : iss ∈ leadingToneAt v t lp L j) :
    iss.index = some j ∧ iss.voice = some v ∧ iss.type = IssueType.UnresolvedLeadingTone := by
  simp only [leadingToneAt] at h
  split at h
  · split at h <;> simp_all
  · simp_all

/-- The rule 3 body emits an issue at position j exactly when the note has
the leading-tone pitch class and the next note is not the tonic pitch class
reached by an upward semitone step. -/
theorem leadingToneAt_nonempty_iff (v : Voice) (t lp : Int) (L : List Note) (j : Nat) :
    (∃ iss, iss ∈ leadingToneAt v t lp L j) ↔
      ((L.getD j dNote).pc = lp ∧
        ¬((L.getD (j + 1) dNote).pc = t ∧
          mod12 ((L.getD (j + 1) dNote).pc - (L.getD j dNote).pc) = 1)) := by
  constructor
  · rintro ⟨iss, hmem⟩
    simp only [leadingToneAt] at hmem
    split at hmem
    · rename_i h1
      split at hmem
      · rename_i h2
        simp only [beq_iff_eq] at h1
        simp only [Bool.not_eq_eq_eq_not, Bool.not_true, Bool.and_eq_false_iff,
          beq_eq_false_iff_ne, ne_eq, beq_iff_eq] at h2
        refine ⟨h1, ?_⟩
        rintro ⟨ht, hstep⟩
        rcases h2 with h2 | h2
        · exact h2 ht
        · exact h2 hstep
      · simp at hmem
    · simp at hmem
  · rintro ⟨hpc, hnot⟩
    have hb2 : (!((L.getD (j + 1) dNote).pc == t
        && (mod12 ((L.getD (j + 1) dNote).pc - (L.getD j dNote).pc) == 1))) = true := by
      simp only [Bool.not_eq_eq_eq_not, Bool.not_true, Bool.and_eq_false_iff,
        beq_eq_false_iff_ne, ne_eq, beq_iff_eq]
      by_cases ht : (L.getD (j + 1) dNote).pc = t
      · right
        intro hstep
        exact hnot ⟨ht, hstep⟩
      · left
        exact ht
    have hne : leadingToneAt v t lp L j ≠ [] := by
      simp only [leadingToneAt]
      rw [if_pos (show ((L.getD j dNote).pc == lp) = true by rw [beq_iff_eq]; exact hpc), if_pos hb2]
      simp
    exact List.exists_mem_of_ne_nil _ hne

/-- Every issue of the rule 3 loop has the given voice tag, the
UnresolvedLeadingTone kind, and an index strictly before the last note. -/
theorem mem_leadingToneIssues {v : Voice} {t lp : Int} {L : List Note} {iss : Issue}
    (h : iss ∈ leadingToneIssues v t lp L) :
    iss.voice = some v ∧ iss.type = IssueType.UnresolvedLeadingTone ∧
      ∃ j, iss.index = some j ∧ j + 1 < L.length := by
  unfold leadingToneIssues at h
  obtain ⟨j, hj, hmem⟩ := mem_flatMap_range.mp h
  have hs := mem_leadingToneAt hmem
  exact ⟨hs.2.1, hs.2.2, j, hs.1, by omega⟩

/-- The rule 3 loop emits an UnresolvedLeadingTone issue at index i exactly
when i + 1 is within the voice, the note at i has the leading-tone pitch
class, and the next note fails the resolution check. -/
theorem leadingToneIssues_mem_iff (v : Voice) (t lp : Int) (L : List Note) (i : Nat) :
    (∃ iss ∈ leadingToneIssues v t lp L, iss.index = some i) ↔
      (i + 1 < L.length ∧ (L.getD i dNote).pc = lp ∧
        ¬((L.getD (i + 1) dNote).pc = t ∧
          mod12 ((L.getD (i + 1) dNote).pc - (L.getD i dNote).pc) = 1)) := by
  unfold leadingToneIssues
  constructor
  · rintro ⟨iss, hmem, hidx⟩
    obtain ⟨j, hj, hmemj⟩ := mem_flatMap_range.mp hmem
    have hs := mem_leadingToneAt hmemj
    have hji : j = i := by
      rw [hs.1] at hidx
      exact Option.some.inj hidx
    subst hji
    exact ⟨by omega, (leadingToneAt_nonempty_iff v t lp L j).mp ⟨iss, hmemj⟩⟩
  · rintro ⟨hi, hc⟩
    obtain ⟨iss, hmem⟩ := (leadingToneAt_nonempty_iff v t lp L i).mpr hc
    exact ⟨iss, mem_flatMap_range.mpr ⟨i, by omega, hmem⟩, (mem_leadingToneAt hmem).1⟩

/-- Step following an upward semitone from the leading tone always lands on
pitch class congruent to one above it. -/
theorem mod12_step (t : Int) : mod12 (t - mod12 (t - 1)) = 1 := by
  rw [mod12_eq, mod12_eq]
  omega

/-- Equation of the melody recursion for an unparseable head token. -/
theorem parseMelodyAux_cons_none {i : Nat} {t : String} {ts : List String}
    (hp : parseNote t = none) :
    parseMelodyAux i (t :: ts) =
      { notes := (parseMelodyAux (i + 1) ts).notes
        issues := { type := IssueType.ParseError, index := some i,
                    details := "Cannot parse note \"" ++ t ++ "\"" }
          :: (parseMelodyAux (i + 1) ts).issues } := by
  rw [parseMelodyAux]
  simp [hp]

/-- Equation of the melody recursion for a parseable head token. -/
theorem parseMelodyAux_cons_some {i : Nat} {t : String} {ts : List String} {n : Note}
    (hp : parseNote t = some n) :
    parseMelodyAux i (t :: ts) =
      { notes := n :: (parseMelodyAux (i + 1) ts).notes
        issues := (parseMelodyAux (i + 1) ts).issues } := by
  rw [parseMelodyAux]
  simp [hp]

/-- Every issue of the melody parser is a ParseError without voice tag, whose
index is at least the starting counter. -/
theorem mem_parseMelodyAux {ts : List String} {i : Nat} {iss : Issue}
    (h : iss ∈ (parseMelodyAux i ts).issues) :
    iss.type = IssueType.ParseError ∧ iss.voice = none ∧
      ∃ j, iss.index = some j ∧ i ≤ j := by
  induction ts generalizing i with
  | nil => simp [parseMelodyAux] at h
  | cons t ts ih =>
    rcases hp : parseNote t with _ | n
    · rw [parseMelodyAux_cons_none hp] at h
      rcases List.mem_cons.mp h with h | h
      · subst h
        exact ⟨rfl, rfl, i, rfl, Nat.le_refl i⟩
      · obtain ⟨h1, h2, j, hj, hij⟩ := ih h
        exact ⟨h1, h2, j, hj, by omega⟩
    · rw [parseMelodyAux_cons_some hp] at h
      obtain ⟨h1, h2, j, hj, hij⟩ := ih h
      exact ⟨h1, h2, j, hj, by omega⟩

/-- Issues of the melody parser appear in strictly increasing token order. -/
theorem parseMelodyAux_pairwise (i : Nat) (ts : List String) :
    ((parseMelodyAux i ts).issues).Pairwise idxLt := by
  induction ts generalizing i with
  | nil => simp [parseMelodyAux]
  | cons t ts ih =>
    rcases hp : parseNote t with _ | n
    · rw [parseMelodyAux_cons_none hp]
      refine List.pairwise_cons.mpr ⟨?_, ih (i + 1)⟩
      intro y hy a b ha hb
      obtain ⟨_, _, j, hj, hij⟩ := mem_parseMelodyAux hy
      simp only at ha
      rw [hj] at hb
      have hai : i = a := Option.some.inj ha
      have hbj : j = b := Option.some.inj hb
      omega
    · rw [parseMelodyAux_cons_some hp]
      exact ih (i + 1)

/-- Shape of parse issues of one melody line. -/
theorem mem_parseMelody_issues {line : String} {iss : Issue}
    (h : iss ∈ (parseMelody line).issues) :
    iss.type = IssueType.ParseError ∧ iss.voice = none := by
  unfold parseMelody at h
  exact ⟨(mem_parseMelodyAux h).1, (mem_parseMelodyAux h).2.1⟩

/-- Parse issues of one melody line are in ascending token order. -/
theorem parseMelody_pairwise (line : String) :
    ((parseMelody line).issues).Pairwise idxLt := by
  unfold parseMelody
  exact parseMelodyAux_pairwise 0 _

/-- A loop whose body tags issues with the loop index produces issues in
strictly ascending index order, provided each body output is itself ordered. -/
theorem pairwise_flatMap_range (f : Nat → List Issue) (n : Nat)
    (hidx : ∀ j iss, iss ∈ f j → iss.index = some j)
    (hone : ∀ j, (f j).Pairwise idxLt) :
    ((List.range n).flatMap f).Pairwise idxLt := by
  induction n with
  | zero => simp
  | succ m ih =>
    rw [List.range_succ, List.flatMap_append]
    refine List.pairwise_append.mpr ⟨ih, by simpa using hone m, ?_⟩
    intro a ha b hb p q hp hq
    obtain ⟨j, hj, hmem⟩ := mem_flatMap_range.mp ha
    simp only [List.flatMap_cons, List.flatMap_nil, List.append_nil] at hb
    have hap := hidx j a hmem
    have hbq := hidx m b hb
    rw [hap] at hp
    rw [hbq] at hq
    have : p = j := Option.some.inj hp.symm
    have : q = m := Option.some.inj hq.symm
    omega

/-- The rule 1 body never emits two issues at one position: the two interval
classes 7 and 0 are mutually exclusive. -/
theorem parallelAt_pairwise (A B : List Note) (j : Nat) :
    (parallelAt A B j).Pairwise idxLt := by
  simp only [parallelAt]
  split
  · split
    · rename_i h1 h2
      simp only [Bool.and_eq_true, beq_iff_eq] at h1 h2
      omega
    · simp
  · split
    · simp
    · simp

/-- The rule 2 body emits at most one issue. -/
theorem leapAt_pairwise (v : Voice) (L : List Note) (j : Nat) :
    (leapAt v L j).Pairwise idxLt := by
  simp only [leapAt]
  split
  · simp
  · simp

/-- The rule 3 body emits at most one issue. -/
theorem leadingToneAt_pairwise (v : Voice) (t lp : Int) (L : List Note) (j : Nat) :
    (leadingToneAt v t lp L j).Pairwise idxLt := by
  simp only [leadingToneAt]
  split
  · split
    · simp
    · simp
  · simp

/-- Unfolding of the analyzer in the successful-key case: the returned list
is the concatenation of the pass outputs in source push order. -/
theorem lintCounterpoint_eq (u l k : String) (key : Key) (hk : parseKey k = some key) :
    lintCounterpoint u l k =
      (parseMelody u).issues ++ (parseMelody l).issues
        ++ (if (parseMelody u).notes.length ≠ (parseMelody l).notes.length then
              [{ type := IssueType.LengthMismatch,
                 details := "Voices have different lengths ("
                   ++ toString (parseMelody u).notes.length ++ " vs "
                   ++ toString (parseMelody l).notes.length
                   ++ "). Lint assumes aligned notes." }]
            else [])
        ++ parallelIssues (parseMelody u).notes (parseMelody l).notes
        ++ leapIssues "A" (parseMelody u).notes
        ++ leapIssues "B" (parseMelody l).notes
        ++ leadingToneIssues "A" key.tonicPC (mod12 (key.tonicPC - 1)) (parseMelody u).notes
        ++ leadingToneIssues "B" key.tonicPC (mod12 (key.tonicPC - 1)) (parseMelody l).notes := by
  unfold lintCounterpoint
  rw [hk]

/-- Every issue of the rule 2 loop has the given voice tag, the
LeapOverOctave kind, and an index strictly before the last note. -/
theorem mem_leapIssues {v : Voice} {L : List Note} {iss : Issue}
    (h : iss ∈ leapIssues v L) :
    iss.voice = some v ∧ iss.type = IssueType.LeapOverOctave ∧
      ∃ j, iss.index = some j ∧ j + 1 < L.length := by
  unfold leapIssues at h
  obtain ⟨j, hj, hmem⟩ := mem_flatMap_range.mp h
  have hs := mem_leapAt hmem
  exact ⟨hs.2.1, hs.2.2, j, hs.1, by omega⟩

/-- Membership in the analyzer output, split by originating pass. -/
theorem mem_lint_iff {u l k : String} {key : Key} (hk : parseKey k = some key) {iss : Issue} :
    iss ∈ lintCounterpoint u l k ↔
      (iss ∈ (parseMelody u).issues ∨ iss ∈ (parseMelody l).issues ∨
       ((parseMelody u).notes.length ≠ (parseMelody l).notes.length ∧
         iss = { type := IssueType.LengthMismatch,
                 details := "Voices have different lengths ("
                   ++ toString (parseMelody u).notes.length ++ " vs "
                   ++ toString (parseMelody l).notes.length
                   ++ "). Lint assumes aligned notes." }) ∨
       iss ∈ parallelIssues (parseMelody u).notes (parseMelody l).notes ∨
       iss ∈ leapIssues "A" (parseMelody u).notes ∨
       iss ∈ leapIssues "B" (parseMelody l).notes ∨
       iss ∈ leadingToneIssues "A" key.tonicPC (mod12 (key.tonicPC - 1)) (parseMelody u).notes ∨
       iss ∈ leadingToneIssues "B" key.tonicPC (mod12 (key.tonicPC - 1)) (parseMelody l).notes) := by
  rw [lintCounterpoint_eq u l k key hk]
  simp only [List.mem_append, List.mem_ite_nil_right, List.mem_singleton, or_assoc]

/-- Parallel5ths issues of the analyzer are exactly those of the rule 1 loop. -/
theorem lint_five_iff {u l k : String} {key : Key} (hk : parseKey k = some key) (i : Nat) :
    (∃ iss ∈ lintCounterpoint u l k,
        iss.type = IssueType.Parallel5ths ∧ iss.index = some i) ↔
      (∃ iss ∈ parallelIssues (parseMelody u).notes (parseMelody l).notes,
        iss.type = IssueType.Parallel5ths ∧ iss.index = some i) := by
  constructor
  · rintro ⟨iss, hmem, ht, hidx⟩
    rcases (mem_lint_iff hk).mp hmem with h | h | h | h | h | h | h | h
    · rw [(mem_parseMelody_issues h).1] at ht
      exact absurd ht (by simp)
    · rw [(mem_parseMelody_issues h).1] at ht
      exact absurd ht (by simp)
    · rw [h.2] at ht
      exact absurd ht (by simp)
    · exact ⟨iss, h, ht, hidx⟩
    · rw [(mem_leapIssues h).2.1] at ht
      exact absurd ht (by simp)
    · rw [(mem_leapIssues h).2.1] at ht
      exact absurd ht (by simp)
    · rw [(mem_leadingToneIssues h).2.1] at ht
      exact absurd ht (by simp)
    · rw [(mem_leadingToneIssues h).2.1] at ht
      exact absurd ht (by simp)
  · rintro ⟨iss, hmem, ht, hidx⟩
    exact ⟨iss, (mem_lint_iff hk).mpr (Or.inr (Or.inr (Or.inr (Or.inl hmem)))), ht, hidx⟩

/-- Parallel8ves issues of the analyzer are exactly those of the rule 1 loop. -/
theorem lint_eight_iff {u l k : String} {key : Key} (hk : parseKey k = some key) (i : Nat) :
    (∃ iss ∈ lintCounterpoint u l k,
        iss.type = IssueType.Parallel8ves ∧ iss.index = some i) ↔
      (∃ iss ∈ parallelIssues (parseMelody u).notes (parseMelody l).notes,
        iss.type = IssueType.Parallel8ves ∧ iss.index = some i) := by
  constructor
  · rintro ⟨iss, hmem, ht, hidx⟩
    rcases (mem_lint_iff hk).mp hmem with h | h | h | h | h | h | h | h
    · rw [(mem_parseMelody_issues h).1] at ht
      exact absurd ht (by simp)
    · rw [(mem_parseMelody_issues h).1] at ht
      exact absurd ht (by simp)
    · rw [h.2] at ht
      exact absurd ht (by simp)
    · exact ⟨iss, h, ht, hidx⟩
    · rw [(mem_leapIssues h).2.1] at ht
      exact absurd ht (by simp)
    · rw [(mem_leapIssues h).2.1] at ht
      exact absurd ht (by simp)
    · rw [(mem_leadingToneIssues h).2.1] at ht
      exact absurd ht (by simp)
    · rw [(mem_leadingToneIssues h).2.1] at ht
      exact absurd ht (by simp)
  · rintro ⟨iss, hmem, ht, hidx⟩
    exact ⟨iss, (mem_lint_iff hk).mpr (Or.inr (Or.inr (Or.inr (Or.inl hmem)))), ht, hidx⟩

/-- Leap issues of the analyzer tagged with voice A are exactly those of the
rule 2 loop over the upper voice. -/
theorem lint_leapA_iff {u l k : String} {key : Key} (hk : parseKey k = some key) (i : Nat) :
    (∃ iss ∈ lintCounterpoint u l k, iss.type = IssueType.LeapOverOctave ∧
        iss.voice = some "A" ∧ iss.index = some i) ↔
      (∃ iss ∈ leapIssues "A" (parseMelody u).notes, iss.index = some i) := by
  constructor
  · rintro ⟨iss, hmem, ht, hv, hidx⟩
    rcases (mem_lint_iff hk).mp hmem with h | h | h | h | h | h | h | h
    · rw [(mem_parseMelody_issues h).1] at ht
      exact absurd ht (by simp)
    · rw [(mem_parseMelody_issues h).1] at ht
      exact absurd ht (by simp)
    · rw [h.2] at ht
      exact absurd ht (by simp)
    · rcases (mem_parallelIssues h).2.1 with h5 | h8
      · rw [h5] at ht
        exact absurd ht (by simp)
      · rw [h8] at ht
        exact absurd ht (by simp)
    · exact ⟨iss, h, hidx⟩
    · rw [(mem_leapIssues h).1] at hv
      exact absurd hv (by simp)
    · rw [(mem_leadingToneIssues h).2.1] at ht
      exact absurd ht (by simp)
    · rw [(mem_leadingToneIssues h).2.1] at ht
      exact absurd ht (by simp)
  · rintro ⟨iss, hmem, hidx⟩
    have hs := mem_leapIssues hmem
    exact ⟨iss, (mem_lint_iff hk).mpr (Or.inr (Or.inr (Or.inr (Or.inr (Or.inl hmem))))),
      hs.2.1, hs.1, hidx⟩

/-- Leap issues of the analyzer tagged with voice B are exactly those of the
rule 2 loop over the lower voice. -/
theorem lint_leapB_iff {u l k : String} {key : Key} (hk : parseKey k = some key) (i : Nat) :
    (∃ iss ∈ lintCounterpoint u l k, iss.type = IssueType.LeapOverOctave ∧
        iss.voice = some "B" ∧ iss.index = some i) ↔
      (∃ iss ∈ leapIssues "B" (parseMelody l).notes, iss.index = some i) := by
  constructor
  · rintro ⟨iss, hmem, ht, hv, hidx⟩
    rcases (mem_lint_iff hk).mp hmem with h | h | h | h | h | h | h | h
    · rw [(mem_parseMelody_issues h).1] at ht
      exact absurd ht (by simp)
    · rw [(mem_parseMelody_issues h).1] at ht
      exact absurd ht (by simp)
    · rw [h.2] at ht
      exact absurd ht (by simp)
    · rcases (mem_parallelIssues h).2.1 with h5 | h8
      · rw [h5] at ht
        exact absurd ht (by simp)
      · rw [h8] at ht
        exact absurd ht (by simp)
    · rw [(mem_leapIssues h).1] at hv
      exact absurd hv (by simp)
    · exact ⟨iss, h, hidx⟩
    · rw [(mem_leadingToneIssues h).2.1] at ht
      exact absurd ht (by simp)
    · rw [(mem_leadingToneIssues h).2.1] at ht
      exact absurd ht (by simp)
  · rintro ⟨iss, hmem, hidx⟩
    have hs := mem_leapIssues hmem
    exact ⟨iss, (mem_lint_iff hk).mpr
      (Or.inr (Or.inr (Or.inr (Or.inr (Or.inr (Or.inl hmem)))))), hs.2.1, hs.1, hidx⟩

/-- UnresolvedLeadingTone issues of the analyzer tagged with voice A are
exactly those of the rule 3 loop over the upper voice. -/
theorem lint_ltA_iff {u l k : String} {key : Key} (hk : parseKey k = some key) (i : Nat) :
    (∃ iss ∈ lintCounterpoint u l k, iss.type = IssueType.UnresolvedLeadingTone ∧
        iss.voice = some "A" ∧ iss.index = some i) ↔
      (∃ iss ∈ leadingToneIssues "A" key.tonicPC (mod12 (key.tonicPC - 1)) (parseMelody u).notes,
        iss.index = some i) := by
  constructor
  · rintro ⟨iss, hmem, ht, hv, hidx⟩
    rcases (mem_lint_iff hk).mp hmem with h | h | h | h | h | h | h | h
    · rw [(mem_parseMelody_issues h).1] at ht
      exact absurd ht (by simp)
    · rw [(mem_parseMelody_issues h).1] at ht
      exact absurd ht (by simp)
    · rw [h.2] at ht
      exact absurd ht (by simp)
    · rcases (mem_parallelIssues h).2.1 with h5 | h8
      · rw [h5] at ht
        exact absurd ht (by simp)
      · rw [h8] at ht
        exact absurd ht (by simp)
    · rw [(mem_leapIssues h).2.1] at ht
      exact absurd ht (by simp)
    · rw [(mem_leapIssues h).2.1] at ht
      exact absurd ht (by simp)
    · exact ⟨iss, h, hidx⟩
    · rw [(mem_leadingToneIssues h).1] at hv
      exact absurd hv (by simp)
  · rintro ⟨iss, hmem, hidx⟩
    have hs := mem_leadingToneIssues hmem
    exact ⟨iss, (mem_lint_iff hk).mpr
      (Or.inr (Or.inr (Or.inr (Or.inr (Or.inr (Or.inr (Or.inl hmem))))))),
      hs.2.1, hs.1, hidx⟩

/-- UnresolvedLeadingTone issues of the analyzer tagged with voice B are
exactly those of the rule 3 loop over the lower voice. -/
theorem lint_ltB_iff {u l k : String} {key : Key} (hk : parseKey k = some key) (i : Nat) :
    (∃ iss ∈ lintCounterpoint u l k, iss.type = IssueType.UnresolvedLeadingTone ∧
        iss.voice = some "B" ∧ iss.index = some i) ↔
      (∃ iss ∈ leadingToneIssues "B" key.tonicPC (mod12 (key.tonicPC - 1)) (parseMelody l).notes,
        iss.index = some i) := by
  constructor
  · rintro ⟨iss, hmem, ht, hv, hidx⟩
    rcases (mem_lint_iff hk).mp hmem with h | h | h | h | h | h | h | h
    · rw [(mem_parseMelody_issues h).1] at ht
      exact absurd ht (by simp)
    · rw [(mem_parseMelody_issues h).1] at ht
      exact absurd ht (by simp)
    · rw [h.2] at ht
      exact absurd ht (by simp)
    · rcases (mem_parallelIssues h).2.1 with h5 | h8
      · rw [h5] at ht
        exact absurd ht (by simp)
      · rw [h8] at ht
        exact absurd ht (by simp)
    · rw [(mem_leapIssues h).2.1] at ht
      exact absurd ht (by simp)
    · rw [(mem_leapIssues h).2.1] at ht
      exact absurd ht (by simp)
    · rw [(mem_leadingToneIssues h).1] at hv
      exact absurd hv (by simp)
    · exact ⟨iss, h, hidx⟩
  · rintro ⟨iss, hmem, hidx⟩
    have hs := mem_leadingToneIssues hmem
    exact ⟨iss, (mem_lint_iff hk).mpr
      (Or.inr (Or.inr (Or.inr (Or.inr (Or.inr (Or.inr (Or.inr hmem))))))),
      hs.2.1, hs.1, hidx⟩

/-- C2: when the key string fails to parse, the analyzer returns exactly one
issue, of kind ParseError, with no index and no voice, regardless of the two
note lines. -/
theorem C2_unparseable_key_short_circuits (u l k : String) (h : parseKey k = none) :
    ∃ d, lintCounterpoint u l k =
      [{ type := IssueType.ParseError, index := none, voice := none, details := d }] := by
  refine ⟨"Key \"" ++ k ++ "\" not understood. Use like \"C major\" or \"A minor\".", ?_⟩
  unfold lintCounterpoint
  rw [h]

/-- Witness for C2 at the spec example input. -/
theorem C2_witness :
    parseKey "Z major" = none ∧
      ∃ d, lintCounterpoint "C4 D4" "E3 F3" "Z major" =
        [{ type := IssueType.ParseError, index := none, voice := none, details := d }] :=
  ⟨by decide, C2_unparseable_key_short_circuits "C4 D4" "E3 F3" "Z major" (by decide)⟩

/-- C4: for each voice, the rule 2 loop emits exactly one LeapOverOctave issue
at index i when the adjacent pair at i, i+1 exists and its absolute pitch
difference strictly exceeds 12 semitones, and none otherwise (a difference of
exactly 12 is not flagged); every emitted issue carries the LeapOverOctave
kind and the voice tag. -/
theorem C4_leap_rule (v : Voice) (L : List Note) (i : Nat) :
    ((leapIssues v L).countP (fun iss => iss.index == some i)
        = if (i + 1 < L.length ∧ 12 < |(L.getD (i + 1) dNote).midi - (L.getD i dNote).midi|)
          then 1 else 0)
      ∧ ∀ iss ∈ leapIssues v L, iss.type = IssueType.LeapOverOctave ∧ iss.voice = some v := by
  refine ⟨leapIssues_countP v L i, ?_⟩
  intro iss hmem
  have hs := mem_leapIssues hmem
  exact ⟨hs.2.1, hs.1⟩

/-- Witness for C4: a 14-semitone leap is flagged once, a 12-semitone leap is
not flagged. -/
theorem C4_witness :
    (leapIssues "A" [{ raw := "C4", midi := 60, pc := 0 },
        { raw := "D5", midi := 74, pc := 2 }]).countP (fun iss => iss.index == some 0) = 1 ∧
    (leapIssues "A" [{ raw := "C4", midi := 60, pc := 0 },
        { raw := "C5", midi := 72, pc := 0 }]).countP (fun iss => iss.index == some 0) = 0 := by
  constructor
  · rw [(C4_leap_rule "A" [{ raw := "C4", midi := 60, pc := 0 },
      { raw := "D5", midi := 74, pc := 2 }] 0).1]
    decide
  · rw [(C4_leap_rule "A" [{ raw := "C4", midi := 60, pc := 0 },
      { raw := "C5", midi := 72, pc := 0 }] 0).1]
    decide

/-- C3: for a voice and an index i with a successor, the rule 3 loop (run by
the analyzer with leading pitch class mod12(tonic - 1)) emits an
UnresolvedLeadingTone issue at i exactly when the note at i has the
leading-tone pitch class and it is not the case that the next note has the
tonic pitch class with a pitch-class step of one semitone up; every emitted
issue carries the voice tag and an index strictly before the last note. -/
theorem C3_leading_tone_rule (v : Voice) (t : Int) (L : List Note) (i : Nat)
    (hi : i + 1 < L.length) :
    ((∃ iss ∈ leadingToneIssues v t (mod12 (t - 1)) L, iss.index = some i) ↔
      ((L.getD i dNote).pc = mod12 (t - 1) ∧
        ¬((L.getD (i + 1) dNote).pc = t ∧
          mod12 ((L.getD (i + 1) dNote).pc - (L.getD i dNote).pc) = 1)))
    ∧ ∀ iss ∈ leadingToneIssues v t (mod12 (t - 1)) L,
        iss.voice = some v ∧ iss.type = IssueType.UnresolvedLeadingTone ∧
          ∃ j, iss.index = some j ∧ j + 1 < L.length := by
  constructor
  · rw [leadingToneIssues_mem_iff]
    exact ⟨fun h => ⟨h.2.1, h.2.2⟩, fun h => ⟨hi, h.1, h.2⟩⟩
  · intro iss hmem
    exact mem_leadingToneIssues hmem

/-- Witness for C3: in C major, B3 followed by D4 is an unresolved leading
tone at index 0. -/
theorem C3_witness :
    ∃ iss ∈ leadingToneIssues "A" 0 (mod12 (0 - 1))
        [{ raw := "B3", midi := 59, pc := 11 }, { raw := "D4", midi := 62, pc := 2 }],
      iss.index = some 0 :=
  (C3_leading_tone_rule "A" 0
      [{ raw := "B3", midi := 59, pc := 11 }, { raw := "D4", midi := 62, pc := 2 }] 0
      (by decide)).1.mpr (by decide)

/-- C10: with the leading pitch class instantiated to mod12(tonic - 1) as the
analyzer does, the semitone-step conjunct of the rule 3 body is redundant:
the loop output is unchanged when the conjunct is dropped. -/
theorem C10_step_conjunct_redundant (v : Voice) (t : Int) (L : List Note) :
    leadingToneIssues v t (mod12 (t - 1)) L
      = leadingToneIssuesSimplified v t (mod12 (t - 1)) L := by
  unfold leadingToneIssues leadingToneIssuesSimplified
  congr 1
  funext j
  by_cases hpc : (L.getD j dNote).pc = mod12 (t - 1)
  · have e0 : ((L.getD j dNote).pc == mod12 (t - 1)) = true := beq_iff_eq.mpr hpc
    by_cases ht : (L.getD (j + 1) dNote).pc = t
    · have hstep : mod12 ((L.getD (j + 1) dNote).pc - (L.getD j dNote).pc) = 1 := by
        rw [ht, hpc]
        exact mod12_step t
      have e1 : ((L.getD (j + 1) dNote).pc == t) = true := beq_iff_eq.mpr ht
      have e2 : (mod12 ((L.getD (j + 1) dNote).pc - (L.getD j dNote).pc) == 1) = true :=
        beq_iff_eq.mpr hstep
      have hn1 : ¬(!((L.getD (j + 1) dNote).pc == t
          && (mod12 ((L.getD (j + 1) dNote).pc - (L.getD j dNote).pc) == 1))) = true := by
        rw [e1, e2]
        decide
      have hn2 : ¬(!((L.getD (j + 1) dNote).pc == t)) = true := by
        rw [e1]
        decide
      simp only [leadingToneAt, leadingToneAtSimplified]
      rw [if_pos e0, if_pos e0, if_neg hn1, if_neg hn2]
    · have e1 : ((L.getD (j + 1) dNote).pc == t) = false := beq_eq_false_iff_ne.mpr ht
      have hp1 : (!((L.getD (j + 1) dNote).pc == t
          && (mod12 ((L.getD (j + 1) dNote).pc - (L.getD j dNote).pc) == 1))) = true := by
        rw [e1]
        simp
      have hp2 : (!((L.getD (j + 1) dNote).pc == t)) = true := by
        rw [e1]
        rfl
      simp only [leadingToneAt, leadingToneAtSimplified]
      rw [if_pos e0, if_pos e0, if_pos hp1, if_pos hp2]
  · have e0 : ((L.getD j dNote).pc == mod12 (t - 1)) = false := beq_eq_false_iff_ne.mpr hpc
    simp only [leadingToneAt, leadingToneAtSimplified]
    rw [if_neg (by rw [e0]; decide), if_neg (by rw [e0]; decide)]

/-- C1: with a parsed key and an aligned adjacent position pair inside the
common prefix, the analyzer emits Parallel5ths at index i exactly when both
step directions are nonzero and equal and both vertical intervals are
congruent to 7 mod 12, and Parallel8ves at index i exactly when the same
similar-motion condition holds with both intervals congruent to 0 mod 12. -/
theorem C1_parallel_motion (u l k : String) (key : Key) (hk : parseKey k = some key)
    (i : Nat)
    (hi : i + 1 < min (parseMelody u).notes.length (parseMelody l).notes.length) :
    ((∃ iss ∈ lintCounterpoint u l k,
        iss.type = IssueType.Parallel5ths ∧ iss.index = some i) ↔
      (sign (((parseMelody u).notes.getD (i + 1) dNote).midi
          - ((parseMelody u).notes.getD i dNote).midi) ≠ 0 ∧
       sign (((parseMelody l).notes.getD (i + 1) dNote).midi
          - ((parseMelody l).notes.getD i dNote).midi) ≠ 0 ∧
       sign (((parseMelody u).notes.getD (i + 1) dNote).midi
          - ((parseMelody u).notes.getD i dNote).midi)
         = sign (((parseMelody l).notes.getD (i + 1) dNote).midi
          - ((parseMelody l).notes.getD i dNote).midi) ∧
       mod12 |((parseMelody u).notes.getD i dNote).midi
          - ((parseMelody l).notes.getD i dNote).midi| = 7 ∧
       mod12 |((parseMelody u).notes.getD (i + 1) dNote).midi
          - ((parseMelody l).notes.getD (i + 1) dNote).midi| = 7))
    ∧ ((∃ iss ∈ lintCounterpoint u l k,
        iss.type = IssueType.Parallel8ves ∧ iss.index = some i) ↔
      (sign (((parseMelody u).notes.getD (i + 1) dNote).midi
          - ((parseMelody u).notes.getD i dNote).midi) ≠ 0 ∧
       sign (((parseMelody l).notes.getD (i + 1) dNote).midi
          - ((parseMelody l).notes.getD i dNote).midi) ≠ 0 ∧
       sign (((parseMelody u).notes.getD (i + 1) dNote).midi
          - ((parseMelody u).notes.getD i dNote).midi)
         = sign (((parseMelody l).notes.getD (i + 1) dNote).midi
          - ((parseMelody l).notes.getD i dNote).midi) ∧
       mod12 |((parseMelody u).notes.getD i dNote).midi
          - ((parseMelody l).notes.getD i dNote).midi| = 0 ∧
       mod12 |((parseMelody u).notes.getD (i + 1) dNote).midi
          - ((parseMelody l).notes.getD (i + 1) dNote).midi| = 0)) := by
  constructor
  · rw [lint_five_iff hk i, parallelIssues_five_iff]
    exact and_iff_right hi
  · rw [lint_eight_iff hk i, parallelIssues_eight_iff]
    exact and_iff_right hi

/-- Witness for C1: similar motion in fifths is flagged, contrary motion with
the same interval classes is not. -/
theorem C1_witness :
    (∃ iss ∈ lintCounterpoint "C4 D4" "F3 G3" "C major",
        iss.type = IssueType.Parallel5ths ∧ iss.index = some 0) ∧
    ¬(∃ iss ∈ lintCounterpoint "C5 G4" "F3 C4" "C major",
        iss.type = IssueType.Parallel5ths ∧ iss.index = some 0) := by
  constructor
  · exact (C1_parallel_motion "C4 D4" "F3 G3" "C major"
      { tonicPC := 0, mode := Mode.major } (by decide) 0 (by decide)).1.mpr (by decide)
  · intro hex
    have h := (C1_parallel_motion "C5 G4" "F3 C4" "C major"
      { tonicPC := 0, mode := Mode.major } (by decide) 0 (by decide)).1.mp hex
    revert h
    decide

/-- Arithmetic of the MIDI convention: a pitch class in 0..11 is recovered
from 12 * (octave + 1) + class by the mathematical remainder. -/
theorem midi_pc_arith (oct pcv : Int) (h1 : 0 ≤ pcv) (h2 : pcv < 12) :
    pcv = (12 * (oct + 1) + pcv) % 12 := by
  omega

/-- C5: every successfully parsed note has its pitch class in 0..11 equal to
the mathematical remainder of the pitch value by 12, and the pitch value is
12 * (octave + 1) plus that class; in particular C4 parses to pitch value 60
and the enharmonic C#4 and Db4 parse to the same pitch value 61. -/
theorem C5_note_pitch :
    (∀ t nt, parseNote t = some nt →
      (0 ≤ nt.pc ∧ nt.pc < 12 ∧ nt.pc = nt.midi % 12 ∧
        ∃ oct : Int, nt.midi = 12 * (oct + 1) + nt.pc)) ∧
    parseNote "C4" = some { raw := "C4", midi := 60, pc := 0 } ∧
    parseNote "C#4" = some { raw := "C#4", midi := 61, pc := 1 } ∧
    parseNote "Db4" = some { raw := "Db4", midi := 61, pc := 1 } := by
  refine ⟨?_, by decide, by decide, by decide⟩
  intro t nt h
  unfold parseNote at h
  split at h
  · exact absurd h (by simp)
  · split at h
    · exact absurd h (by simp)
    · dsimp only at h
      split at h
      · exact absurd h (by simp)
      · obtain rfl : _ = nt := Option.some.inj h
        exact ⟨mod12_nonneg _, mod12_lt _,
          midi_pc_arith _ _ (mod12_nonneg _) (mod12_lt _), _, rfl⟩

/-- Witness for C5 at the token C4. -/
theorem C5_witness :
    0 ≤ ({ raw := "C4", midi := 60, pc := 0 } : Note).pc ∧
    ({ raw := "C4", midi := 60, pc := 0 } : Note).pc < 12 ∧
    ({ raw := "C4", midi := 60, pc := 0 } : Note).pc
      = ({ raw := "C4", midi := 60, pc := 0 } : Note).midi % 12 ∧
    ∃ oct : Int, ({ raw := "C4", midi := 60, pc := 0 } : Note).midi
      = 12 * (oct + 1) + ({ raw := "C4", midi := 60, pc := 0 } : Note).pc :=
  C5_note_pitch.1 "C4" { raw := "C4", midi := 60, pc := 0 } (by decide)

/-- A list whose members all falsify a predicate has count zero. -/
theorem countP_zero_of_shape {L : List Issue} {p : Issue → Bool}
    (h : ∀ iss ∈ L, p iss = false) : L.countP p = 0 :=
  List.countP_eq_zero.mpr (fun a ha => by rw [h a ha]; simp)

/-- C6: with a parsed key, the analyzer emits exactly one LengthMismatch
issue when the parsed voice lengths differ and none when they agree, the
mismatch detail states both lengths, every parallel issue lies inside the
common prefix, and the leap and leading-tone characterizations range over
each voice's full parsed length. -/
theorem C6_length_mismatch (u l k : String) (key : Key) (hk : parseKey k = some key) :
    ((lintCounterpoint u l k).countP (fun iss => iss.type == IssueType.LengthMismatch)
        = if (parseMelody u).notes.length = (parseMelody l).notes.length then 0 else 1) ∧
    ((parseMelody u).notes.length ≠ (parseMelody l).notes.length →
      ∃ iss ∈ lintCounterpoint u l k, iss.type = IssueType.LengthMismatch ∧
        iss.details = "Voices have different lengths ("
          ++ toString (parseMelody u).notes.length ++ " vs "
          ++ toString (parseMelody l).notes.length ++ "). Lint assumes aligned notes.") ∧
    (∀ iss ∈ lintCounterpoint u l k,
      (iss.type = IssueType.Parallel5ths ∨ iss.type = IssueType.Parallel8ves) →
        ∃ j, iss.index = some j ∧
          j + 1 < min (parseMelody u).notes.length (parseMelody l).notes.length) ∧
    (∀ i, (∃ iss ∈ lintCounterpoint u l k, iss.type = IssueType.LeapOverOctave ∧
          iss.voice = some "A" ∧ iss.index = some i) ↔
        (i + 1 < (parseMelody u).notes.length ∧
          12 < |((parseMelody u).notes.getD (i + 1) dNote).midi
            - ((parseMelody u).notes.getD i dNote).midi|)) ∧
    (∀ i, (∃ iss ∈ lintCounterpoint u l k, iss.type = IssueType.LeapOverOctave ∧
          iss.voice = some "B" ∧ iss.index = some i) ↔
        (i + 1 < (parseMelody l).notes.length ∧
          12 < |((parseMelody l).notes.getD (i + 1) dNote).midi
            - ((parseMelody l).notes.getD i dNote).midi|)) ∧
    (∀ i, (∃ iss ∈ lintCounterpoint u l k, iss.type = IssueType.UnresolvedLeadingTone ∧
          iss.voice = some "A" ∧ iss.index = some i) ↔
        (i + 1 < (parseMelody u).notes.length ∧
          ((parseMelody u).notes.getD i dNote).pc = mod12 (key.tonicPC - 1) ∧
          ¬(((parseMelody u).notes.getD (i + 1) dNote).pc = key.tonicPC ∧
            mod12 (((parseMelody u).notes.getD (i + 1) dNote).pc
              - ((parseMelody u).notes.getD i dNote).pc) = 1))) ∧
    (∀ i, (∃ iss ∈ lintCounterpoint u l k, iss.type = IssueType.UnresolvedLeadingTone ∧
          iss.voice = some "B" ∧ iss.index = some i) ↔
        (i + 1 < (parseMelody l).notes.length ∧
          ((parseMelody l).notes.getD i dNote).pc = mod12 (key.tonicPC - 1) ∧
          ¬(((parseMelody l).notes.getD (i + 1) dNote).pc = key.tonicPC ∧
            mod12 (((parseMelody l).notes.getD (i + 1) dNote).pc
              - ((parseMelody l).notes.getD i dNote).pc) = 1))) := by
  have z1 : ((parseMelody u).issues).countP (fun iss => iss.type == IssueType.LengthMismatch) = 0 :=
    countP_zero_of_shape (fun iss hm => by rw [(mem_parseMelody_issues hm).1]; rfl)
  have z2 : ((parseMelody l).issues).countP (fun iss => iss.type == IssueType.LengthMismatch) = 0 :=
    countP_zero_of_shape (fun iss hm => by rw [(mem_parseMelody_issues hm).1]; rfl)
  have z3 : (parallelIssues (parseMelody u).notes (parseMelody l).notes).countP
      (fun iss => iss.type == IssueType.LengthMismatch) = 0 :=
    countP_zero_of_shape (fun iss hm => by
      rcases (mem_parallelIssues hm).2.1 with h5 | h8
      · rw [h5]; rfl
      · rw [h8]; rfl)
  have z4 : (leapIssues "A" (parseMelody u).notes).countP
      (fun iss => iss.type == IssueType.LengthMismatch) = 0 :=
    countP_zero_of_shape (fun iss hm => by rw [(mem_leapIssues hm).2.1]; rfl)
  have z5 : (leapIssues "B" (parseMelody l).notes).countP
      (fun iss => iss.type == IssueType.LengthMismatch) = 0 :=
    countP_zero_of_shape (fun iss hm => by rw [(mem_leapIssues hm).2.1]; rfl)
  have z6 : (leadingToneIssues "A" key.tonicPC (mod12 (key.tonicPC - 1))
      (parseMelody u).notes).countP (fun iss => iss.type == IssueType.LengthMismatch) = 0 :=
    countP_zero_of_shape (fun iss hm => by rw [(mem_leadingToneIssues hm).2.1]; rfl)
  have z7 : (leadingToneIssues "B" key.tonicPC (mod12 (key.tonicPC - 1))
      (parseMelody l).notes).countP (fun iss => iss.type == IssueType.LengthMismatch) = 0 :=
    countP_zero_of_shape (fun iss hm => by rw [(mem_leadingToneIssues hm).2.1]; rfl)
  refine ⟨?_, ?_, ?_, ?_, ?_, ?_, ?_⟩
  · by_cases hlen : (parseMelody u).notes.length = (parseMelody l).notes.length
    · rw [lintCounterpoint_eq u l k key hk, if_neg (fun hc => hc hlen), if_pos hlen]
      simp only [List.countP_append, List.countP_nil, z1, z2, z3, z4, z5, z6, z7]
    · rw [lintCounterpoint_eq u l k key hk, if_pos hlen, if_neg hlen]
      simp only [List.countP_append, z1, z2, z3, z4, z5, z6, z7]
      simp [List.countP_cons]
  · intro hne
    refine ⟨_, (mem_lint_iff hk).mpr (Or.inr (Or.inr (Or.inl ⟨hne, rfl⟩))), rfl, rfl⟩
  · intro iss hmem htype
    rcases (mem_lint_iff hk).mp hmem with h | h | h | h | h | h | h | h
    · rw [(mem_parseMelody_issues h).1] at htype
      simp at htype
    · rw [(mem_parseMelody_issues h).1] at htype
      simp at htype
    · rw [h.2] at htype
      simp at htype
    · exact (mem_parallelIssues h).2.2
    · rw [(mem_leapIssues h).2.1] at htype
      simp at htype
    · rw [(mem_leapIssues h).2.1] at htype
      simp at htype
    · rw [(mem_leadingToneIssues h).2.1] at htype
      simp at htype
    · rw [(mem_leadingToneIssues h).2.1] at htype
      simp at htype
  · intro i
    rw [lint_leapA_iff hk i, leapIssues_mem_iff]
  · intro i
    rw [lint_leapB_iff hk i, leapIssues_mem_iff]
  · intro i
    rw [lint_ltA_iff hk i, leadingToneIssues_mem_iff]
  · intro i
    rw [lint_ltB_iff hk i, leadingToneIssues_mem_iff]

/-- Witness for C6 at the spec mismatch example. -/
theorem C6_witness :
    (lintCounterpoint "C4 D4 E4" "C3 D3" "C major").countP
      (fun iss => iss.type == IssueType.LengthMismatch) = 1 := by
  rw [(C6_length_mismatch "C4 D4 E4" "C3 D3" "C major"
    { tonicPC := 0, mode := Mode.major } (by decide)).1]
  decide

/-- Counterexample to C7 as stated: at the spec leap example, the single
LeapOverOctave issue carries voice "A", and "A" is not the string "upper". -/
theorem C7_counterexample :
    (lintCounterpoint "C4 D5" "C3 C3" "C major").map
        (fun iss => (iss.type, iss.voice, iss.index))
      = [(IssueType.LeapOverOctave, some "A", some 0)] ∧
    ("A" : String) ≠ "upper" := by
  constructor
  · decide
  · decide

/-- C7 amended: every voice field of an analyzer issue is none, "A" (upper
line) or "B" (lower line); the 13-semitone leap example yields exactly one
LeapOverOctave issue, tagged "A" at index 0. -/
theorem C7_voice_values :
    (∀ u l k : String, ∀ iss ∈ lintCounterpoint u l k,
      iss.voice = none ∨ iss.voice = some "A" ∨ iss.voice = some "B") ∧
    (lintCounterpoint "C4 D5" "C3 C3" "C major").map
        (fun iss => (iss.type, iss.voice, iss.index))
      = [(IssueType.LeapOverOctave, some "A", some 0)] := by
  constructor
  · intro u l k iss hmem
    rcases hparse : parseKey k with _ | key
    · unfold lintCounterpoint at hmem
      rw [hparse] at hmem
      rcases List.mem_singleton.mp hmem with rfl
      exact Or.inl rfl
    · rcases (mem_lint_iff hparse).mp hmem with h | h | h | h | h | h | h | h
      · exact Or.inl (mem_parseMelody_issues h).2
      · exact Or.inl (mem_parseMelody_issues h).2
      · rw [h.2]
        exact Or.inl rfl
      · exact Or.inl (mem_parallelIssues h).1
      · exact Or.inr (Or.inl (mem_leapIssues h).1)
      · exact Or.inr (Or.inr (mem_leapIssues h).1)
      · exact Or.inr (Or.inl (mem_leadingToneIssues h).1)
      · exact Or.inr (Or.inr (mem_leadingToneIssues h).1)
  · decide

/-- Witness for the amended C7 at the leap issue of the spec example. -/
theorem C7_witness :
    ({ type := IssueType.LeapOverOctave, index := some 0, voice := some "A",
        details := "Upper voice leaps 14 semitones at 0→1 (C4→D5)" } : Issue).voice = none ∨
    ({ type := IssueType.LeapOverOctave, index := some 0, voice := some "A",
        details := "Upper voice leaps 14 semitones at 0→1 (C4→D5)" } : Issue).voice = some "A" ∨
    ({ type := IssueType.LeapOverOctave, index := some 0, voice := some "A",
        details := "Upper voice leaps 14 semitones at 0→1 (C4→D5)" } : Issue).voice = some "B" :=
  C7_voice_values.1 "C4 D5" "C3 C3" "C major" _ (by decide)

/-- Rule 1 loop issues are in strictly ascending index order. -/
theorem parallelIssues_pairwise (A B : List Note) :
    (parallelIssues A B).Pairwise idxLt := by
  unfold parallelIssues
  exact pairwise_flatMap_range _ _ (fun j iss h => (mem_parallelAt h).1)
    (fun j => parallelAt_pairwise A B j)

/-- Rule 2 loop issues are in strictly ascending index order. -/
theorem leapIssues_pairwise (v : Voice) (L : List Note) :
    (leapIssues v L).Pairwise idxLt := by
  unfold leapIssues
  exact pairwise_flatMap_range _ _ (fun j iss h => (mem_leapAt h).1)
    (fun j => leapAt_pairwise v L j)

/-- Rule 3 loop issues are in strictly ascending index order. -/
theorem leadingToneIssues_pairwise (v : Voice) (t lp : Int) (L : List Note) :
    (leadingToneIssues v t lp L).Pairwise idxLt := by
  unfold leadingToneIssues
  exact pairwise_flatMap_range _ _ (fun j iss h => (mem_leadingToneAt h).1)
    (fun j => leadingToneAt_pairwise v t lp L j)

/-- C8: with a parsed key, the analyzer output decomposes, in order, into the
upper-voice parse errors, the lower-voice parse errors, the length-mismatch
segment, the parallel-motion issues, the per-voice leap issues and the
per-voice leading-tone issues, each segment of the stated kind and each rule
segment in strictly ascending index order (parse errors in original token
order). -/
theorem C8_ordering (u l k : String) (key : Key) (hk : parseKey k = some key) :
    ∃ pe1 pe2 lm par la lb ta tb : List Issue,
      lintCounterpoint u l k = pe1 ++ pe2 ++ lm ++ par ++ la ++ lb ++ ta ++ tb ∧
      pe1 = (parseMelody u).issues ∧ pe2 = (parseMelody l).issues ∧
      (∀ iss ∈ pe1, iss.type = IssueType.ParseError) ∧
      (∀ iss ∈ pe2, iss.type = IssueType.ParseError) ∧
      (∀ iss ∈ lm, iss.type = IssueType.LengthMismatch) ∧
      (∀ iss ∈ par, iss.type = IssueType.Parallel5ths ∨ iss.type = IssueType.Parallel8ves) ∧
      (∀ iss ∈ la, iss.type = IssueType.LeapOverOctave ∧ iss.voice = some "A") ∧
      (∀ iss ∈ lb, iss.type = IssueType.LeapOverOctave ∧ iss.voice = some "B") ∧
      (∀ iss ∈ ta, iss.type = IssueType.UnresolvedLeadingTone ∧ iss.voice = some "A") ∧
      (∀ iss ∈ tb, iss.type = IssueType.UnresolvedLeadingTone ∧ iss.voice = some "B") ∧
      pe1.Pairwise idxLt ∧ pe2.Pairwise idxLt ∧ par.Pairwise idxLt ∧
      la.Pairwise idxLt ∧ lb.Pairwise idxLt ∧ ta.Pairwise idxLt ∧ tb.Pairwise idxLt := by
  refine ⟨(parseMelody u).issues, (parseMelody l).issues,
    (if (parseMelody u).notes.length ≠ (parseMelody l).notes.length then
      [{ type := IssueType.LengthMismatch,
         details := "Voices have different lengths ("
           ++ toString (parseMelody u).notes.length ++ " vs "
           ++ toString (parseMelody l).notes.length
           ++ "). Lint assumes aligned notes." }]
    else []),
    parallelIssues (parseMelody u).notes (parseMelody l).notes,
    leapIssues "A" (parseMelody u).notes,
    leapIssues "B" (parseMelody l).notes,
    leadingToneIssues "A" key.tonicPC (mod12 (key.tonicPC - 1)) (parseMelody u).notes,
    leadingToneIssues "B" key.tonicPC (mod12 (key.tonicPC - 1)) (parseMelody l).notes,
    lintCounterpoint_eq u l k key hk, rfl, rfl,
    fun iss h => (mem_parseMelody_issues h).1,
    fun iss h => (mem_parseMelody_issues h).1,
    ?_,
    fun iss h => (mem_parallelIssues h).2.1,
    fun iss h => ⟨(mem_leapIssues h).2.1, (mem_leapIssues h).1⟩,
    fun iss h => ⟨(mem_leapIssues h).2.1, (mem_leapIssues h).1⟩,
    fun iss h => ⟨(mem_leadingToneIssues h).2.1, (mem_leadingToneIssues h).1⟩,
    fun iss h => ⟨(mem_leadingToneIssues h).2.1, (mem_leadingToneIssues h).1⟩,
    parseMelody_pairwise u, parseMelody_pairwise l,
    parallelIssues_pairwise _ _,
    leapIssues_pairwise _ _, leapIssues_pairwise _ _,
    leadingToneIssues_pairwise _ _ _ _, leadingToneIssues_pairwise _ _ _ _⟩
  intro iss h
  rcases List.mem_ite_nil_right.mp h with ⟨_, hm⟩
  rcases List.mem_singleton.mp hm with rfl
  rfl

/-- Witness for C8 at a concrete input. -/
theorem C8_witness :
    ∃ pe1 pe2 lm par la lb ta tb : List Issue,
      lintCounterpoint "C4 D4" "F3 G3" "C major"
          = pe1 ++ pe2 ++ lm ++ par ++ la ++ lb ++ ta ++ tb ∧
        par.Pairwise idxLt := by
  obtain ⟨pe1, pe2, lm, par, la, lb, ta, tb, heq, -, -, -, -, -, -, -, -, -, -, -, -, hpar,
    -, -, -, -⟩ := C8_ordering "C4 D4" "F3 G3" "C major"
      { tonicPC := 0, mode := Mode.major } (by decide)
  exact ⟨pe1, pe2, lm, par, la, lb, ta, tb, heq, hpar⟩

/-- Counterexample to C9 as stated: the key parser accepts the accidental
spelling uppercase B (its regex is case-insensitive) without applying the
flat adjustment, while the note parser rejects the same spelling; so the
letter-and-accidental handling of the two parsers is not identical. -/
theorem C9_counterexample :
    parseKey "CB major" = some { tonicPC := 0, mode := Mode.major } ∧
      parseNote "CB4" = none := by
  constructor
  · decide
  · decide

/-- C9 amended: for the accidental spellings empty, sharp and lowercase b,
the key parser accepts a key exactly when the note parser accepts the
corresponding note token and derives the same pitch class; additionally the
key parser alone accepts an uppercase B as accidental, deriving the pitch
class of the bare (natural) letter, while the note parser rejects it. -/
theorem C9_letter_accidental :
    (∀ c ∈ (['A', 'B', 'C', 'D', 'E', 'F', 'G',
        'a', 'b', 'c', 'd', 'e', 'f', 'g'] : List Char),
      ∀ acc ∈ ([[], ['#'], ['b']] : List (List Char)),
        (parseKey (String.mk (c :: acc ++ " major".toList))).isSome = true ∧
        Option.map Key.tonicPC (parseKey (String.mk (c :: acc ++ " major".toList)))
          = Option.map Note.pc (parseNote (String.mk (c :: acc ++ ['4'])))) ∧
    (∀ c ∈ (['A', 'B', 'C', 'D', 'E', 'F', 'G',
        'a', 'b', 'c', 'd', 'e', 'f', 'g'] : List Char),
      Option.map Key.tonicPC (parseKey (String.mk (c :: 'B' :: " major".toList)))
        = Option.map Note.pc (parseNote (String.mk [c, '4'])) ∧
      parseNote (String.mk (c :: 'B' :: ['4'])) = none) := by
  constructor
  · decide
  · decide

/-- Witness for the amended C9 at C sharp. -/
theorem C9_witness :
    (parseKey (String.mk ('C' :: ['#'] ++ " major".toList))).isSome = true ∧
      Option.map Key.tonicPC (parseKey (String.mk ('C' :: ['#'] ++ " major".toList)))
        = Option.map Note.pc (parseNote (String.mk ('C' :: ['#'] ++ ['4']))) :=
  C9_letter_accidental.1 'C' (by decide) ['#'] (by decide)

end Counterpoint
